import Mathlib

/-!
Verification of the image-processing toolkit (`src/image_processing.py`)
against its natural-language specification.

The Python code operates on 2D numpy arrays of intensity samples.  We embed a
numpy array as a `Raster`: an explicit shape together with a total data
function (cells outside the shape are never read by any of the embedded
operations on in-range indices).  Real-valued float arithmetic is modelled
over `ℝ`; stages whose values are exact (the thresholded 0/50/255 grids, the
CDF arithmetic) are additionally instantiated over `ℚ` so that concrete runs
are decidable.  `astype(np.uint8)` on the non-negative values produced here is
truncation toward zero followed by reduction modulo 256.
-/

namespace ImgProc

/-- Shallow embedding of a 2D numpy array: row count, column count, and the
cell contents as a total function. -/
structure Raster (α : Type) where
  rows : ℕ
  cols : ℕ
  data : ℕ → ℕ → α

/-- Writing a single cell of an array (`a[i, j] = v`). -/
def setCell {α : Type} (g : Raster α) (i j : ℕ) (v : α) : Raster α :=
  ⟨g.rows, g.cols, fun a b => if a = i ∧ b = j then v else g.data a b⟩

/-- Embedding of `array.T` (numpy transpose). -/
def transposeR {α : Type} (g : Raster α) : Raster α :=
  ⟨g.cols, g.rows, fun i j => g.data j i⟩

/-- The failure raised by `np.zeros` when `convolve` computes a negative
output dimension (`x - 2*k < 0` or `y - 2*k < 0`): numpy's
"negative dimensions are not allowed" `ValueError`.  This is the only failure
the convolution path can raise. -/
inductive ConvError where
  | negativeDims
deriving DecidableEq

/-- The value stored by `convolve` at output cell `(i, j)`:
`np.sum(np.multiply(image[i:i+k, j:j+k], kernel))`, the elementwise
product-sum of the kernel against the `k × k` window of the image whose
top-left corner is `(i, j)` (lines 216-217 of the source). -/
def convData {α : Type} [Mul α] [AddCommMonoid α] (image kernel : Raster α) :
    ℕ → ℕ → α :=
  fun i j =>
    ∑ a ∈ Finset.range kernel.rows, ∑ b ∈ Finset.range kernel.rows,
      image.data (i + a) (j + b) * kernel.data a b

/-- Embedding of `convolve` (lines 210-219).  `k = kernel.shape[0]`; the
output is allocated as `np.zeros((x - 2k, y - 2k))` — there is no dimension
precondition check in the source, so the call fails exactly when one of the
computed dimensions is negative (numpy rejects the allocation), and a
zero-extent dimension yields an empty output array.  Every cell of the
output receives the window product-sum; no padding, no normalization. -/
def convolve {α : Type} [Mul α] [AddCommMonoid α] (image kernel : Raster α) :
    Except ConvError (Raster α) :=
  if image.rows < 2 * kernel.rows ∨ image.cols < 2 * kernel.rows then
    Except.error ConvError.negativeDims
  else
    Except.ok ⟨image.rows - 2 * kernel.rows, image.cols - 2 * kernel.rows,
      convData image kernel⟩

/-- The `direction` argument of `apply_edge` ('Horizontal', 'Vertical', and
the `else` branch used for 'both'). -/
inductive Direction where
  | horizontal | vertical | both

/-- Embedding of `astype(np.uint8)` applied to the non-negative float values
this code produces: truncation toward zero, then reduction modulo 256
(no clamping). -/
noncomputable def toUint8 (v : ℝ) : ℕ :=
  (Int.floor v).toNat % 256

/-- Elementwise `astype(np.uint8)` on a real raster. -/
noncomputable def toUint8Raster (g : Raster ℝ) : Raster ℕ :=
  ⟨g.rows, g.cols, fun i j => toUint8 (g.data i j)⟩

/-- Elementwise `abs` on a raster. -/
noncomputable def absRaster (g : Raster ℝ) : Raster ℝ :=
  ⟨g.rows, g.cols, fun i j => |g.data i j|⟩

/-- Embedding of `apply_edge` (lines 363-372).  'Horizontal' convolves with
the kernel, 'Vertical' with its transpose, and the remaining case ('both')
combines the two absolute responses via `np.sqrt(edge_x**2 + edge_y**2)`.
The result is narrowed with `astype(np.uint8)` with no clamping. -/
noncomputable def apply_edge (image array : Raster ℝ) (direction : Direction) :
    Except ConvError (Raster ℕ) :=
  match direction with
  | Direction.horizontal => do
      let c ← convolve image array
      pure (toUint8Raster (absRaster c))
  | Direction.vertical => do
      let c ← convolve image (transposeR array)
      pure (toUint8Raster (absRaster c))
  | Direction.both => do
      let cx ← convolve image array
      let cy ← convolve image (transposeR array)
      let edge_x := absRaster cx
      let edge_y := absRaster cy
      pure (toUint8Raster ⟨edge_x.rows, edge_x.cols,
        fun i j => Real.sqrt ((edge_x.data i j) ^ 2 + (edge_y.data i j) ^ 2)⟩)

/-- Embedding of the kernel built by `apply_gaussian_filter` (lines 178-180):
`np.fromfunction` of the Gaussian density at offset from
`(kernel_size - 1) // 2` (integer division), then divided by the kernel's
total sum. -/
noncomputable def gaussian_kernel (kernel_size : ℕ) (sigma : ℝ) : Raster ℝ :=
  let c : ℝ := ((kernel_size - 1) / 2 : ℕ)
  let raw : ℕ → ℕ → ℝ := fun x y =>
    (1 / (2 * Real.pi * sigma ^ 2)) *
      Real.exp (-(((x : ℝ) - c) ^ 2 + ((y : ℝ) - c) ^ 2) / (2 * sigma ^ 2))
  let s : ℝ :=
    ∑ x ∈ Finset.range kernel_size, ∑ y ∈ Finset.range kernel_size, raw x y
  ⟨kernel_size, kernel_size, fun x y => raw x y / s⟩

/-- Embedding of `apply_gaussian_filter` (lines 170-184): convolve with the
normalized Gaussian kernel.  The source defaults are `kernel_size=3`,
`sigma=10`; callers of the embedding pass them explicitly. -/
noncomputable def apply_gaussian_filter (image : Raster ℝ) (kernel_size : ℕ)
    (sigma : ℝ) : Except ConvError (Raster ℝ) :=
  convolve image (gaussian_kernel kernel_size sigma)

/-- Embedding of `np.arctan2 y x`: the signed angle in `(-π, π]`, with
`arctan2 0 0 = 0`. -/
noncomputable def arctan2 (y x : ℝ) : ℝ :=
  if 0 < x then Real.arctan (y / x)
  else if x < 0 then
    (if 0 ≤ y then Real.arctan (y / x) + Real.pi
     else Real.arctan (y / x) - Real.pi)
  else
    (if 0 < y then Real.pi / 2 else if y < 0 then -(Real.pi / 2) else 0)

/-- The Sobel x kernel `[[-1,0,1],[-2,0,2],[-1,0,1]]` used by
`compute_gradient` (line 295). -/
noncomputable def sobelX : Raster ℝ :=
  ⟨3, 3, fun a b =>
    if b = 0 then (if a = 1 then -2 else -1)
    else if b = 2 then (if a = 1 then 2 else 1)
    else 0⟩

/-- The Sobel y kernel `[[-1,-2,-1],[0,0,0],[1,2,1]]` used by
`compute_gradient` (line 296). -/
noncomputable def sobelY : Raster ℝ :=
  ⟨3, 3, fun a b =>
    if a = 0 then (if b = 1 then -2 else -1)
    else if a = 2 then (if b = 1 then 2 else 1)
    else 0⟩

/-- Embedding of `compute_gradient` (lines 294-301): Sobel-x and Sobel-y
convolutions, magnitude `sqrt(sx² + sy²)` and direction `arctan2 sy sx`. -/
noncomputable def compute_gradient (image : Raster ℝ) :
    Except ConvError (Raster ℝ × Raster ℝ) := do
  let sx ← convolve image sobelX
  let sy ← convolve image sobelY
  pure (⟨sx.rows, sx.cols,
          fun i j => Real.sqrt ((sx.data i j) ^ 2 + (sy.data i j) ^ 2)⟩,
        ⟨sx.rows, sx.cols,
          fun i j => arctan2 (sy.data i j) (sx.data i j)⟩)

/-- Embedding of `non_maximum_suppression` (lines 304-325).  The output is
`np.zeros_like(gradient_magnitude)`; only interior cells
(`1 ≤ i < rows - 1`, `1 ≤ j < cols - 1`) are written.  The neighbor pair
`(q, r)` starts at `(255, 255)` and the three angle branches of the source
are translated verbatim, including the unreachable second disjunct of the
third branch; a cell keeps its magnitude exactly when it is `≥` both
selected neighbors. -/
noncomputable def non_maximum_suppression
    (gradient_magnitude gradient_direction : Raster ℝ) : Raster ℝ :=
  ⟨gradient_magnitude.rows, gradient_magnitude.cols, fun i j =>
    if 1 ≤ i ∧ i < gradient_magnitude.rows - 1 ∧
        1 ≤ j ∧ j < gradient_magnitude.cols - 1 then
      let angle := gradient_direction.data i j
      let qr : ℝ × ℝ :=
        if (0 ≤ angle ∧ angle < Real.pi / 8) ∨
            (7 * Real.pi / 8 ≤ angle ∧ angle ≤ Real.pi) then
          (gradient_magnitude.data i (j + 1), gradient_magnitude.data i (j - 1))
        else if (Real.pi / 8 ≤ angle ∧ angle < 3 * Real.pi / 8) ∨
            (5 * Real.pi / 8 ≤ angle ∧ angle < 7 * Real.pi / 8) then
          (gradient_magnitude.data (i + 1) (j - 1),
           gradient_magnitude.data (i - 1) (j + 1))
        else if (3 * Real.pi / 8 ≤ angle ∧ angle < 5 * Real.pi / 8) ∨
            (5 * Real.pi / 8 ≤ angle ∧ angle < 7 * Real.pi / 8) then
          (gradient_magnitude.data (i + 1) j, gradient_magnitude.data (i - 1) j)
        else (255, 255)
      if qr.1 ≤ gradient_magnitude.data i j ∧
          qr.2 ≤ gradient_magnitude.data i j then
        gradient_magnitude.data i j
      else 0
    else 0⟩

/-- Embedding of `double_thresholding` (lines 328-334).  The output is a
fresh `np.zeros_like` grid; strong cells (`> high`) are written 255 first and
weak cells (`low ≤ m ≤ high`) are written 50 afterwards, so a cell satisfying
the weak predicate ends at 50 (the two predicates never overlap). -/
def double_thresholding {α : Type} [LinearOrderedField α]
    (gradient_magnitude : Raster α) (low_threshold high_threshold : α) :
    Raster α :=
  ⟨gradient_magnitude.rows, gradient_magnitude.cols, fun i j =>
    let m := gradient_magnitude.data i j
    if low_threshold ≤ m ∧ m ≤ high_threshold then 50
    else if high_threshold < m then 255
    else 0⟩

/-- Contents of the `gradient_magnitude` argument after `double_thresholding`
returns: the source writes only into its freshly allocated `np.zeros_like`
output and never into the argument array, so the argument is unchanged. -/
def double_thresholding_inputAfter {α : Type} [LinearOrderedField α]
    (gradient_magnitude : Raster α) (low_threshold high_threshold : α) :
    Raster α :=
  let _ := low_threshold
  let _ := high_threshold
  gradient_magnitude

/-- The eight neighbor offsets visited by the `dfs` of `edge_tracking`
(lines 346-349), in the source's loop order (`di` then `dj`, skipping
`(0,0)`). -/
def neighborOffsets : List (ℤ × ℤ) :=
  [(-1, -1), (-1, 0), (-1, 1), (0, -1), (0, 1), (1, -1), (1, 0), (1, 1)]

/-- Embedding of the recursive `dfs` of `edge_tracking` (lines 342-349),
with an explicit fuel parameter standing in for the unbounded Python call
stack: if the cell is in bounds and currently 50 it is rewritten to 255 and
the eight neighbors are visited in order on the updated grid.  Each
recursive level is entered only after a 50-cell was rewritten, so any fuel
exceeding the total cell count reproduces the unbounded recursion exactly. -/
def dfsTrack {α : Type} [LinearOrderedField α] :
    ℕ → Raster α → ℤ → ℤ → Raster α
  | 0, g, _, _ => g
  | (fuel + 1), g, i, j =>
    if 0 ≤ i ∧ i < (g.rows : ℤ) ∧ 0 ≤ j ∧ j < (g.cols : ℤ) then
      if g.data i.toNat j.toNat = 50 then
        neighborOffsets.foldl
          (fun acc d => dfsTrack fuel acc (i + d.1) (j + d.2))
          (setCell g i.toNat j.toNat 255)
      else g
    else g

/-- Embedding of `edge_tracking` (lines 337-359).  The strong and weak masks
are computed from the argument grid BEFORE the traversal; the traversal seeds
`dfs` at every cell whose original value is 255; afterwards every cell whose
ORIGINAL value was 50 is overwritten with 0.  The source performs all of this
in place on `thresholded_image` and returns that same array; the returned
`Raster` is therefore also the final contents of the argument.  The two
threshold parameters are accepted and unused, as in the source. -/
def edge_tracking {α : Type} [LinearOrderedField α]
    (thresholded_image : Raster α) (low_threshold high_threshold : α) :
    Raster α :=
  let _ := low_threshold
  let _ := high_threshold
  let fuel := thresholded_image.rows * thresholded_image.cols + 1
  let afterDfs :=
    (List.range thresholded_image.rows).foldl (fun g i =>
      (List.range thresholded_image.cols).foldl (fun g2 j =>
        if thresholded_image.data i j = 255 then
          dfsTrack fuel g2 (i : ℤ) (j : ℤ)
        else g2) g)
      thresholded_image
  ⟨thresholded_image.rows, thresholded_image.cols, fun i j =>
    if thresholded_image.data i j = 50 then 0 else afterDfs.data i j⟩

/-- Contents of the `thresholded_image` argument after `edge_tracking`
returns: the source mutates the argument in place and returns it, so the
argument's final contents are exactly the returned grid. -/
def edge_tracking_inputAfter {α : Type} [LinearOrderedField α]
    (thresholded_image : Raster α) (low_threshold high_threshold : α) :
    Raster α :=
  edge_tracking thresholded_image low_threshold high_threshold

/-- Embedding of `canny_edge` (lines 275-291): Gaussian blur (source default
kernel size 3, sigma 10), gradient, non-maximum suppression, double
thresholding, hysteresis tracking.  The source performs no validation of the
thresholds; the only failure path is a convolution on an undersized image.
The source's unused `direction` parameter is omitted. -/
noncomputable def canny_edge (image : Raster ℝ)
    (low_threshold high_threshold : ℝ) : Except ConvError (Raster ℝ) := do
  let blurred ← apply_gaussian_filter image 3 10
  let g ← compute_gradient blurred
  let suppressed := non_maximum_suppression g.1 g.2
  let thresholded := double_thresholding suppressed low_threshold high_threshold
  pure (edge_tracking thresholded low_threshold high_threshold)

/-- The running sum of `get_cdf` (lines 40-42): `cdf[0]` is left at its
`np.zeros` initial value 0, and for `i ≥ 1`, `cdf[i] = cdf[i-1] + prob[i]`.
Note the accumulation starts at index 1, so `prob[0]` is never added. -/
def cdfAux (prob : List ℚ) : ℕ → ℚ
  | 0 => 0
  | i + 1 => cdfAux prob i + prob.getD (i + 1) 0

/-- The `no_pixels` computed by `get_cdf` (lines 33-38): the product of the
first two shape entries when the shape has more than one axis, otherwise the
first entry. -/
def no_pixels_of_shape (shape : List ℕ) : ℚ :=
  if shape.length > 1 then ((shape.getD 0 0 * shape.getD 1 0 : ℕ) : ℚ)
  else ((shape.getD 0 0 : ℕ) : ℚ)

/-- Embedding of `get_cdf` (lines 26-44): `no_pixels` from the shape tuple,
`prob = histogram / no_pixels`, then the running sum `cdfAux` materialized
as a list of length `len(prob)`. -/
def get_cdf (histogram : List ℚ) (shape : List ℕ) : List ℚ :=
  let prob := histogram.map (fun h => h / no_pixels_of_shape shape)
  (List.range prob.length).map (cdfAux prob)

/-! Concrete inputs used by witnesses and counterexamples. -/

/-- A 7×7 rational image of ones. -/
def img7q : Raster ℚ := ⟨7, 7, fun _ _ => 1⟩

/-- A 3×3 rational kernel of ones. -/
def ker3q : Raster ℚ := ⟨3, 3, fun _ _ => 1⟩

/-- A 6×7 all-zero rational image: its first dimension equals `2 * 3`
exactly. -/
def img6x7 : Raster ℚ := ⟨6, 7, fun _ _ => 0⟩

/-- A 1×2 thresholded grid: one STRONG pixel (255) at `(0,0)` and one WEAK
pixel (50) at `(0,1)`, which is 8-connected to the strong pixel. -/
def t12 : Raster ℚ :=
  ⟨1, 2, fun i j => if i = 0 ∧ j = 0 then 255
                    else if i = 0 ∧ j = 1 then 50 else 0⟩

/-- A 2×2 thresholded grid with a STRONG pixel at `(0,0)` and a WEAK pixel
at `(0,1)`. -/
def t22 : Raster ℚ :=
  ⟨2, 2, fun i j => if i = 0 ∧ j = 0 then 255
                    else if i = 0 ∧ j = 1 then 50 else 0⟩

/-- A 7×7 real image whose only nonzero pixels are 150 at `(1,2)` and 200 at
`(2,1)`; both values are valid 8-bit intensities.  Its Sobel responses on
the single output cell are `gx = 300` and `gy = 400`. -/
noncomputable def img7r : Raster ℝ :=
  ⟨7, 7, fun i j => if i = 1 ∧ j = 2 then 150
                    else if i = 2 ∧ j = 1 then 200 else 0⟩

/-- A 20×20 all-zero real image. -/
noncomputable def zeros20 : Raster ℝ := ⟨20, 20, fun _ _ => 0⟩

/-- A 3×3 all-zero real grid (used as both a magnitude and an orientation
field). -/
noncomputable def zeros3 : Raster ℝ := ⟨3, 3, fun _ _ => 0⟩

/-- A 3×3 magnitude field holding 300 everywhere. -/
noncomputable def mag3 : Raster ℝ := ⟨3, 3, fun _ _ => 300⟩

/-- A 3×3 orientation field holding the negative angle -1 everywhere. -/
noncomputable def dir3 : Raster ℝ := ⟨3, 3, fun _ _ => -1⟩

/-- A 256-bin histogram of a 1-pixel image whose only pixel has intensity 0:
all mass is in bin 0. -/
def hist256 : List ℚ := 1 :: List.replicate 255 0

/-- A 1×1 magnitude grid holding 200. -/
def m200 : Raster ℚ := ⟨1, 1, fun _ _ => 200⟩

/-- The blurred stage of `canny_edge` on `zeros20`: a 14×14 grid. -/
noncomputable def blur20 : Raster ℝ :=
  ⟨14, 14, convData zeros20 (gaussian_kernel 3 10)⟩

/-- The gradient-magnitude stage of `canny_edge` on `zeros20`: an 8×8
grid. -/
noncomputable def gm20 : Raster ℝ :=
  ⟨8, 8, fun i j =>
    Real.sqrt ((convData blur20 sobelX i j) ^ 2 + (convData blur20 sobelY i j) ^ 2)⟩

/-- The gradient-direction stage of `canny_edge` on `zeros20`. -/
noncomputable def gd20 : Raster ℝ :=
  ⟨8, 8, fun i j =>
    arctan2 (convData blur20 sobelY i j) (convData blur20 sobelX i j)⟩

/-- The edge map `canny_edge` returns on `zeros20` for thresholds
`(low, high)`. -/
noncomputable def cannyOut20 (low high : ℝ) : Raster ℝ :=
  edge_tracking
    (double_thresholding (non_maximum_suppression gm20 gd20) low high)
    low high

/-! Shared helper lemmas. -/

/-- When both image dimensions are at least twice the kernel side, `convolve`
succeeds and returns the cropped grid of window product-sums. -/
theorem convolve_ok {α : Type} [Mul α] [AddCommMonoid α]
    (image kernel : Raster α)
    (hx : 2 * kernel.rows ≤ image.rows) (hy : 2 * kernel.rows ≤ image.cols) :
    convolve image kernel =
      Except.ok ⟨image.rows - 2 * kernel.rows, image.cols - 2 * kernel.rows,
        convData image kernel⟩ := by
  unfold convolve
  rw [if_neg]
  omega

/-- Reduction of a successful `Except` bind. -/
theorem exc_bind_ok {ε α β : Type} (a : α) (f : α → Except ε β) :
    (Except.ok (ε := ε) a >>= f) = f a := rfl

/-- C2: for images strictly larger than `2k` in both axes, `convolve`
returns a grid of shape `(x - 2k) × (y - 2k)` and each output cell is the
elementwise product-sum of the kernel against the `k × k` image window with
top-left corner at that cell — no padding and no normalization. -/
theorem C2_convolve_shape_and_values (image kernel : Raster ℚ)
    (hsq : kernel.cols = kernel.rows)
    (hx : 2 * kernel.rows < image.rows) (hy : 2 * kernel.rows < image.cols) :
    (convolve image kernel).map (fun r => (r.rows, r.cols)) =
      Except.ok (image.rows - 2 * kernel.rows, image.cols - 2 * kernel.rows) ∧
    ∀ i j, i < image.rows - 2 * kernel.rows →
      j < image.cols - 2 * kernel.rows →
      (convolve image kernel).map (fun r => r.data i j) =
        Except.ok (∑ a ∈ Finset.range kernel.rows,
          ∑ b ∈ Finset.range kernel.rows,
            image.data (i + a) (j + b) * kernel.data a b) := by
  rw [convolve_ok image kernel (le_of_lt hx) (le_of_lt hy)]
  exact ⟨rfl, fun i j _ _ => rfl⟩

/-- Witness for C2 at a concrete 7×7 image and 3×3 kernel. -/
theorem C2_convolve_shape_and_values_w :
    (ker3q.cols = ker3q.rows ∧ 2 * ker3q.rows < img7q.rows ∧
      2 * ker3q.rows < img7q.cols) ∧
    ((convolve img7q ker3q).map (fun r => (r.rows, r.cols)) =
      Except.ok (img7q.rows - 2 * ker3q.rows, img7q.cols - 2 * ker3q.rows) ∧
    ∀ i j, i < img7q.rows - 2 * ker3q.rows →
      j < img7q.cols - 2 * ker3q.rows →
      (convolve img7q ker3q).map (fun r => r.data i j) =
        Except.ok (∑ a ∈ Finset.range ker3q.rows,
          ∑ b ∈ Finset.range ker3q.rows,
            img7q.data (i + a) (j + b) * ker3q.data a b)) :=
  ⟨⟨rfl, by decide, by decide⟩,
   C2_convolve_shape_and_values img7q ker3q rfl (by decide) (by decide)⟩

/-- C7 counterexample: on a 6×7 image with a 3×3 kernel the first image
dimension equals `2 × 3`, yet `convolve` does not fail — it returns a
degenerate empty grid of shape `0 × 1`. -/
theorem C7_convolve_degenerate_ce :
    (convolve img6x7 ker3q).map (fun r => (r.rows, r.cols)) =
      Except.ok (0, 1) := rfl

/-- C7 amended: `convolve` performs no explicit precondition check; it fails
(with the negative-dimension allocation error, returning no partial result)
exactly when an image dimension is strictly below `2k`, while a dimension
equal to `2k` yields a degenerate empty grid. -/
theorem C7_convolve_error_iff (image kernel : Raster ℚ) :
    convolve image kernel = Except.error ConvError.negativeDims ↔
      (image.rows < 2 * kernel.rows ∨ image.cols < 2 * kernel.rows) := by
  unfold convolve
  split <;> simp_all

/-- C6: with `0 ≤ low ≤ high`, `double_thresholding` marks a cell 255
(STRONG) iff its magnitude exceeds `high`, 50 (WEAK) iff the magnitude lies
in `[low, high]`, 0 (NONE) otherwise, and leaves the magnitude grid
untouched (the classification goes into fresh storage). -/
theorem C6_double_thresholding_classifies (m : Raster ℚ) (low high : ℚ)
    (h0 : 0 ≤ low) (hlh : low ≤ high) (i j : ℕ) :
    ((double_thresholding m low high).data i j = 255 ↔ high < m.data i j) ∧
    ((double_thresholding m low high).data i j = 50 ↔
      (low ≤ m.data i j ∧ m.data i j ≤ high)) ∧
    ((¬ high < m.data i j ∧ ¬ (low ≤ m.data i j ∧ m.data i j ≤ high)) →
      (double_thresholding m low high).data i j = 0) ∧
    double_thresholding_inputAfter m low high = m := by
  unfold double_thresholding double_thresholding_inputAfter
  dsimp only
  split_ifs with h1 h2
  · refine ⟨?_, ?_, ?_, rfl⟩
    · exact ⟨fun hv => absurd hv (by norm_num),
             fun hv => absurd hv (not_lt.mpr h1.2)⟩
    · exact ⟨fun _ => h1, fun _ => rfl⟩
    · exact fun hc => absurd h1 hc.2
  · refine ⟨?_, ?_, ?_, rfl⟩
    · exact ⟨fun _ => h2, fun _ => rfl⟩
    · exact ⟨fun hv => absurd hv (by norm_num), fun hv => absurd hv h1⟩
    · exact fun hc => absurd h2 hc.1
  · refine ⟨?_, ?_, ?_, rfl⟩
    · exact ⟨fun hv => absurd hv (by norm_num), fun hv => absurd hv h2⟩
    · exact ⟨fun hv => absurd hv (by norm_num), fun hv => absurd hv h1⟩
    · exact fun _ => rfl

/-- Witness for C6 at a 1×1 grid holding 200 with thresholds 50 and 150. -/
theorem C6_double_thresholding_classifies_w :
    ((0:ℚ) ≤ 50 ∧ (50:ℚ) ≤ 150) ∧
    (((double_thresholding m200 50 150).data 0 0 = 255 ↔ 150 < m200.data 0 0) ∧
    ((double_thresholding m200 50 150).data 0 0 = 50 ↔
      (50 ≤ m200.data 0 0 ∧ m200.data 0 0 ≤ 150)) ∧
    ((¬ (150:ℚ) < m200.data 0 0 ∧
        ¬ ((50:ℚ) ≤ m200.data 0 0 ∧ m200.data 0 0 ≤ 150)) →
      (double_thresholding m200 50 150).data 0 0 = 0) ∧
    double_thresholding_inputAfter m200 50 150 = m200) :=
  ⟨⟨by norm_num, by norm_num⟩,
   C6_double_thresholding_classifies m200 50 150 (by norm_num) (by norm_num) 0 0⟩

/-- C1: evaluation of `edge_tracking` at the failing input: a 1×2 grid with
a STRONG pixel at `(0,0)` and a WEAK pixel at `(0,1)` that is 8-connected to
it.  The claim requires the weak pixel to be promoted to EDGE (255); the
code instead returns 0 there — the weak mask is taken before the traversal
and zeroes every originally-weak pixel, and the traversal itself never
promotes anything because `dfs` is seeded only at strong cells where its
`== 50` guard fails immediately. -/
theorem C1_edge_tracking_eval :
    t12.data 0 0 = 255 ∧ t12.data 0 1 = 50 ∧
    (edge_tracking t12 (50:ℚ) 150).data 0 0 = 255 ∧
    (edge_tracking t12 (50:ℚ) 150).data 0 1 = 0 := by decide

/-- C9 counterexample: `edge_tracking` does not leave its input grid intact —
after the call, the argument's cell `(0,1)` has changed from 50 to 0. -/
theorem C9_edge_tracking_mutates_ce :
    (edge_tracking_inputAfter t22 (50:ℚ) 150).data 0 1 ≠ t22.data 0 1 := by
  decide

/-- C9 amended: core operations write only into freshly allocated grids and
leave their argument unchanged — with the exception (besides the documented
noisy-image field) of `edge_tracking`, which mutates the thresholded grid
passed to it in place: here its weak cell `(0,1)` is demoted from 50 to 0 in
the caller's own storage. -/
theorem C9_input_grids_immutable_except_tracking :
    (∀ (m : Raster ℚ) (low high : ℚ),
      double_thresholding_inputAfter m low high = m) ∧
    (edge_tracking_inputAfter t22 (50:ℚ) 150).data 0 1 = 0 ∧
    t22.data 0 1 = 50 :=
  ⟨fun _ _ _ => rfl, by decide, by decide⟩

/-- An all-zero suffix contributes nothing to the running sum: if every
entry of `prob` at index 1 or above is 0, then every `cdfAux` value is 0. -/
theorem cdfAux_eq_zero (prob : List ℚ)
    (hp : ∀ k, 1 ≤ k → prob.getD k 0 = 0) : ∀ i, cdfAux prob i = 0 := by
  intro i
  induction i with
  | zero => rfl
  | succ n ih =>
      have h2 := hp (n + 1) (by omega)
      rw [List.getD_eq_getElem?_getD] at h2
      simp [cdfAux, ih, h2]

/-- Indexing into `(List.range n).map f` below `n` gives `f i`. -/
theorem range_map_getD {α : Type} (f : ℕ → α) (n i : ℕ) (d : α)
    (h : i < n) : ((List.range n).map f).getD i d = f i := by
  simp [List.getElem?_map, List.getElem?_range h]

/-- Every `getD` access into a list of zeros returns 0. -/
theorem replicate_getD_zero : ∀ (n k : ℕ),
    (List.replicate n (0 : ℚ)).getD k 0 = 0
  | 0, _ => by simp
  | _ + 1, 0 => rfl
  | n + 1, k + 1 => by
      rw [List.replicate_succ, List.getD_cons_succ]
      exact replicate_getD_zero n k

/-- C4: evaluation of `get_cdf` at the failing input: a 256-bin histogram of
a 1-pixel image whose whole mass sits in bin 0.  The claim requires
`cdf[0] = hist[0]/N = 1` and `cdf[255] = 1`; the code leaves `cdf[0] = 0`
and, since the accumulation starts at bin 1, also `cdf[255] = 0`. -/
theorem C4_get_cdf_eval :
    (get_cdf hist256 [1, 1]).getD 0 0 = 0 ∧
    (get_cdf hist256 [1, 1]).getD 255 0 = 0 ∧
    hist256.getD 0 0 / ((1 : ℚ) * 1) = 1 := by
  have hp : ∀ k, 1 ≤ k →
      (hist256.map (fun h => h / no_pixels_of_shape [1, 1])).getD k 0 = 0 := by
    intro k hk
    match k, hk with
    | k + 1, _ =>
      simp only [hist256, List.map_cons, List.map_replicate, zero_div,
        List.getD_cons_succ]
      exact replicate_getD_zero 255 k
  have hlen : (hist256.map (fun h => h / no_pixels_of_shape [1, 1])).length
      = 256 := by
    rw [List.length_map]
    simp only [hist256, List.length_cons, List.length_replicate]
  refine ⟨?_, ?_, by norm_num [hist256]⟩
  · unfold get_cdf
    dsimp only
    rw [hlen, range_map_getD _ 256 0 0 (by norm_num)]
    rfl
  · unfold get_cdf
    dsimp only
    rw [hlen, range_map_getD _ 256 255 0 (by norm_num)]
    exact cdfAux_eq_zero _ hp 255

/-- C3: non-maximum suppression never increases any pixel relative to the
(non-negative) magnitude field, and every border pixel of the output is 0. -/
theorem C3_nms_le_and_border (gm gd : Raster ℝ)
    (hpos : ∀ i j, 0 ≤ gm.data i j) (i j : ℕ) :
    (non_maximum_suppression gm gd).data i j ≤ gm.data i j ∧
    ((i = 0 ∨ i = gm.rows - 1 ∨ j = 0 ∨ j = gm.cols - 1) →
      (non_maximum_suppression gm gd).data i j = 0) := by
  unfold non_maximum_suppression
  dsimp only
  constructor
  · split_ifs <;> first | exact le_rfl | exact hpos i j
  · intro hb
    rw [if_neg]
    omega

/-- Witness for C3 at concrete all-zero 3×3 magnitude and orientation
grids. -/
theorem C3_nms_le_and_border_w :
    (∀ i j, (0:ℝ) ≤ zeros3.data i j) ∧
    ((non_maximum_suppression zeros3 zeros3).data 0 0 ≤ zeros3.data 0 0 ∧
      ((0 = 0 ∨ 0 = zeros3.rows - 1 ∨ 0 = 0 ∨ 0 = zeros3.cols - 1) →
        (non_maximum_suppression zeros3 zeros3).data 0 0 = 0)) :=
  ⟨fun _ _ => le_refl 0,
   C3_nms_le_and_border zeros3 zeros3 (fun _ _ => le_refl 0) 0 0⟩

/-- C10: at an interior pixel whose orientation angle is negative, none of
the three direction branches of `non_maximum_suppression` matches, the two
comparison neighbors stay at the sentinel 255, and the pixel is kept exactly
when its own magnitude is at least 255 and zeroed otherwise. -/
theorem C10_nms_negative_angle (gm gd : Raster ℝ) (i j : ℕ)
    (hi1 : 1 ≤ i) (hi2 : i < gm.rows - 1)
    (hj1 : 1 ≤ j) (hj2 : j < gm.cols - 1)
    (hneg : gd.data i j < 0) :
    (non_maximum_suppression gm gd).data i j =
      if 255 ≤ gm.data i j then gm.data i j else 0 := by
  have hπ := Real.pi_pos
  unfold non_maximum_suppression
  dsimp only
  rw [if_pos ⟨hi1, hi2, hj1, hj2⟩]
  have h1 : ¬((0 ≤ gd.data i j ∧ gd.data i j < Real.pi / 8) ∨
      (7 * Real.pi / 8 ≤ gd.data i j ∧ gd.data i j ≤ Real.pi)) := by
    rintro (⟨h, _⟩ | ⟨h, _⟩) <;> linarith
  have h2 : ¬((Real.pi / 8 ≤ gd.data i j ∧ gd.data i j < 3 * Real.pi / 8) ∨
      (5 * Real.pi / 8 ≤ gd.data i j ∧ gd.data i j < 7 * Real.pi / 8)) := by
    rintro (⟨h, _⟩ | ⟨h, _⟩) <;> linarith
  have h3 : ¬((3 * Real.pi / 8 ≤ gd.data i j ∧ gd.data i j < 5 * Real.pi / 8) ∨
      (5 * Real.pi / 8 ≤ gd.data i j ∧ gd.data i j < 7 * Real.pi / 8)) := by
    rintro (⟨h, _⟩ | ⟨h, _⟩) <;> linarith
  rw [if_neg h1, if_neg h2, if_neg h3]
  by_cases hk : (255:ℝ) ≤ gm.data i j
  · rw [if_pos ⟨hk, hk⟩, if_pos hk]
  · rw [if_neg (fun hc => hk hc.1), if_neg hk]

/-- Witness for C10 at a 3×3 magnitude field of 300s and an orientation
field of -1s, at the interior pixel `(1,1)`. -/
theorem C10_nms_negative_angle_w :
    ((1:ℕ) ≤ 1 ∧ 1 < mag3.rows - 1 ∧ (1:ℕ) ≤ 1 ∧ 1 < mag3.cols - 1 ∧
      dir3.data 1 1 < 0) ∧
    (non_maximum_suppression mag3 dir3).data 1 1 =
      if (255:ℝ) ≤ mag3.data 1 1 then mag3.data 1 1 else 0 :=
  ⟨⟨le_refl 1, by norm_num [mag3], le_refl 1, by norm_num [mag3],
     by norm_num [dir3]⟩,
   C10_nms_negative_angle mag3 dir3 1 1 (le_refl 1) (by norm_num [mag3])
     (le_refl 1) (by norm_num [mag3]) (by norm_num [dir3])⟩

/-- C5: evaluation of `apply_edge` with direction BOTH at the failing input
`img7r` with the Sobel kernel.  The directional responses on the single
output cell are 300 and 400, the combined Euclidean norm is 500 — above the
8-bit range — and instead of clamping to 255 the code's `astype(np.uint8)`
wraps the value modulo 256 to 244. -/
theorem C5_apply_edge_wraparound :
    (apply_edge img7r sobelX Direction.both).map (fun r => r.data 0 0) =
      Except.ok 244 ∧
    Real.sqrt ((300:ℝ) ^ 2 + 400 ^ 2) = 500 ∧
    (255:ℝ) < 500 ∧ toUint8 500 = 244 := by
  have hgx : convData img7r sobelX 0 0 = 300 := by
    simp [convData, img7r, sobelX, Finset.sum_range_succ]
    norm_num
  have hgy : convData img7r (transposeR sobelX) 0 0 = 400 := by
    simp [convData, img7r, sobelX, transposeR, Finset.sum_range_succ]
    norm_num
  have hsqrt : Real.sqrt ((300:ℝ) ^ 2 + 400 ^ 2) = 500 := by
    rw [show ((300:ℝ) ^ 2 + 400 ^ 2) = 500 ^ 2 by norm_num]
    exact Real.sqrt_sq (by norm_num)
  have h500 : toUint8 500 = 244 := by
    unfold toUint8
    rw [show ((500:ℝ)) = ((500:ℤ):ℝ) by norm_num, Int.floor_intCast]
    rfl
  refine ⟨?_, hsqrt, by norm_num, h500⟩
  unfold apply_edge
  rw [convolve_ok img7r sobelX (by norm_num [img7r, sobelX])
        (by norm_num [img7r, sobelX]),
      convolve_ok img7r (transposeR sobelX)
        (by norm_num [img7r, sobelX, transposeR])
        (by norm_num [img7r, sobelX, transposeR])]
  show Except.ok (toUint8 (Real.sqrt
      (|convData img7r sobelX 0 0| ^ 2 +
       |convData img7r (transposeR sobelX) 0 0| ^ 2))) = Except.ok 244
  rw [hgx, hgy, show |(300:ℝ)| = 300 by norm_num,
      show |(400:ℝ)| = 400 by norm_num, hsqrt, h500]

/-- On the 20×20 all-zero image, `canny_edge` runs the whole pipeline to
completion for every threshold pair, returning the 8×8 grid `cannyOut20`:
no stage inspects the thresholds for validity. -/
theorem canny_zeros20_eq (low high : ℝ) :
    canny_edge zeros20 low high = Except.ok (cannyOut20 low high) := by
  unfold canny_edge apply_gaussian_filter
  rw [convolve_ok zeros20 (gaussian_kernel 3 10) (by decide) (by decide)]
  rw [exc_bind_ok]
  show (compute_gradient blur20 >>= _) = _
  unfold compute_gradient
  rw [convolve_ok blur20 sobelX (by decide) (by decide),
      convolve_ok blur20 sobelY (by decide) (by decide)]
  rfl

/-- C8 counterexample: with `low = 150 > high = 50` the canny entry point
does not fail — it produces an 8×8 edge map from the 20×20 input. -/
theorem C8_canny_invalid_thresholds_ce :
    (canny_edge zeros20 150 50).map (fun r => (r.rows, r.cols)) =
      Except.ok (8, 8) := by
  rw [canny_zeros20_eq]
  rfl

/-- C8 amended: `canny_edge` performs no threshold validation at all; for
every threshold pair — ordered or not, negative or not — it runs the
pipeline to completion and returns an edge map. -/
theorem C8_canny_no_threshold_check (low high : ℝ) :
    ∃ out, canny_edge zeros20 low high = Except.ok out ∧
      out.rows = 8 ∧ out.cols = 8 :=
  ⟨cannyOut20 low high, canny_zeros20_eq low high, rfl, rfl⟩

end ImgProc
